import Mathlib

/-!
Shallow embedding of python/paddle/fluid/dygraph/learning_rate_scheduler.py.

Numbers that the Python module handles as floats are modelled as rationals
where only field arithmetic and comparisons occur (the plateau policy, the
warmup wrapper, the state-dict machinery) and as real numbers where
fractional powers occur (PolynomialDecay, NoamDecay).  Step and epoch
counters are natural numbers.  Python exceptions are modelled by an
explicit error type, and fallible operations return Except.
-/

namespace Paddle

/-- Python exception kinds raised by the scheduler module. -/
inductive PyError where
  | valueError
  | typeError
  | assertionError
  | runtimeError
deriving DecidableEq

/-- A scheduler attribute value as stored in the object dict: a plain
number, a framework tensor (its list of elements), or Python None. -/
inductive PyVal where
  | num (q : ℚ)
  | tensor (l : List ℚ)
  | pynone
deriving DecidableEq

/-- Lookup of an attribute binding in an object dict (first binding wins). -/
def attrLookup {V : Type} (st : List (String × V)) (k : String) : Option V :=
  match st with
  | [] => none
  | (k1, v) :: rest => if k1 = k then some v else attrLookup rest k

/-- Assignment of an attribute in an object dict: replace the first
binding of the key, or append a fresh binding. -/
def attrSet {V : Type} (st : List (String × V)) (k : String) (v : V) :
    List (String × V) :=
  match st with
  | [] => [(k, v)]
  | (k1, v1) :: rest =>
    if k1 = k then (k, v) :: rest else (k1, v1) :: attrSet rest k v

/-- The key-restoring loop of LearningRateDecay.set_state_dict: assign the
declared keys in order from the incoming mapping, stopping with a
RuntimeError at the first declared key absent from the mapping.  The
(possibly partially) updated object dict is returned alongside the error,
mirroring the fact that in Python the assignments made before the raise
persist on the object. -/
def setStateDictLoop {V : Type} (sd : List (String × V)) :
    List String → List (String × V) → List (String × V) × Option PyError
  | [], st => (st, none)
  | k :: ks, st =>
    match attrLookup sd k with
    | some v => setStateDictLoop sd ks (attrSet st k v)
    | none => (st, some .runtimeError)

/-- LearningRateDecay.set_state_dict: restore the declared keys, then (only
when no error was raised) emit a warning, returned as the Bool component,
when the incoming mapping holds more entries than there are declared
keys. -/
def set_state_dict {V : Type} (keys : List String) (sd : List (String × V))
    (st : List (String × V)) : (List (String × V) × Option PyError) × Bool :=
  let r := setStateDictLoop sd keys st
  (r, r.2.isNone && decide (keys.length < sd.length))

/-- LearningRateDecay.state_dict: export the declared keys that are present
on the object, in order, unwrapping a single-element tensor to the plain
number it holds and failing with an AssertionError when a tensor holds a
different number of elements. -/
def state_dict (keys : List String) (st : List (String × PyVal)) :
    Except PyError (List (String × PyVal)) :=
  match keys with
  | [] => .ok []
  | k :: ks =>
    match attrLookup st k with
    | none => state_dict ks st
    | some (.tensor l) =>
      if l.length = 1 then
        (state_dict ks st).map (fun rest => (k, .num (l.headD 0)) :: rest)
      else .error .assertionError
    | some v => (state_dict ks st).map (fun rest => (k, v) :: rest)

/-- The unwrapping that state_dict applies to an exported value: a tensor
becomes the plain number it holds, everything else passes unchanged. -/
def unwrapVal : PyVal → PyVal
  | .tensor l => .num (l.headD 0)
  | v => v

/-- A key is ready for export: present on the object and, if its value is
a tensor, that tensor holds exactly one element. -/
def exportReady (st : List (String × PyVal)) (k : String) : Bool :=
  match attrLookup st k with
  | none => false
  | some (.tensor l) => l.length == 1
  | some _ => true

/-- A key holds a tensor of the wrong size for export. -/
def exportBadTensor (st : List (String × PyVal)) (k : String) : Bool :=
  match attrLookup st k with
  | some (.tensor l) => l.length != 1
  | _ => false

/-- The declared persistent keys of ReduceLROnPlateau (its _state_keys). -/
def plateauKeys : List String :=
  ["cooldown_counter", "best_loss", "num_bad_epochs", "epoch_num",
   "learning_rate"]

/-- A learning-rate value: either still a plain Python number or already
materialized as a single-element framework tensor holding that number. -/
inductive RateValue where
  | plain (q : ℚ)
  | var (q : ℚ)
deriving DecidableEq

/-- The numeric value carried by a rate value. -/
def RateValue.val : RateValue → ℚ
  | .plain q => q
  | .var q => q

/-- The mode parameter of ReduceLROnPlateau after validation. -/
inductive PlateauMode where
  | min
  | max
deriving DecidableEq

/-- The threshold_mode parameter of ReduceLROnPlateau after validation. -/
inductive ThresholdMode where
  | rel
  | abs
deriving DecidableEq

/-- The mutable state and immutable configuration of a ReduceLROnPlateau
scheduler. -/
structure ReduceLROnPlateau where
  mode : PlateauMode
  decay_rate : ℚ
  patience : ℕ
  verbose : Bool
  threshold : ℚ
  threshold_mode : ThresholdMode
  cooldown : ℕ
  min_lr : ℚ
  eps : ℚ
  learning_rate : RateValue
  cooldown_counter : ℕ
  best_loss : Option ℚ
  num_bad_epochs : ℕ
  epoch_num : ℕ
deriving DecidableEq

/-- Python str.lower as the source applies it to the mode strings: map
Char.toLower over the characters. -/
def pyLower (s : String) : String := ⟨s.data.map Char.toLower⟩

/-- ReduceLROnPlateau.__init__: validate mode, then decay_rate, then
threshold_mode, in the order of the source, and build the initial state. -/
def ReduceLROnPlateau.init (learning_rate : ℚ) (mode : String)
    (decay_rate : ℚ) (patience : ℕ) (verbose : Bool) (threshold : ℚ)
    (threshold_mode : String) (cooldown : ℕ) (min_lr : ℚ) (eps : ℚ) :
    Except PyError ReduceLROnPlateau :=
  let m := pyLower mode
  if m ≠ "min" ∧ m ≠ "max" then .error .valueError
  else if 1 ≤ decay_rate then .error .valueError
  else
    let tm := pyLower threshold_mode
    if tm ≠ "rel" ∧ tm ≠ "abs" then .error .valueError
    else
      .ok
        { mode := if m = "min" then .min else .max
          decay_rate := decay_rate
          patience := patience
          verbose := verbose
          threshold := threshold
          threshold_mode := if tm = "rel" then .rel else .abs
          cooldown := cooldown
          min_lr := min_lr
          eps := eps
          learning_rate := .plain learning_rate
          cooldown_counter := 0
          best_loss := none
          num_bad_epochs := 0
          epoch_num := 0 }

/-- ReduceLROnPlateau._is_better, with the final source branch catching the
max/abs combination. -/
def ReduceLROnPlateau.is_better (s : ReduceLROnPlateau)
    (current best : ℚ) : Bool :=
  if s.mode = .min ∧ s.threshold_mode = .rel then
    decide (current < best - best * s.threshold)
  else if s.mode = .min ∧ s.threshold_mode = .abs then
    decide (current < best - s.threshold)
  else if s.mode = .max ∧ s.threshold_mode = .rel then
    decide (best + best * s.threshold < current)
  else
    decide (best + s.threshold < current)

/-- ReduceLROnPlateau.step: advance the epoch counter; while in cooldown
only decrement the cooldown counter; otherwise update the best-loss and
bad-epoch bookkeeping and, when the patience is exceeded, reset the
cooldown, clamp the reduced rate at min_lr and commit it only when the
reduction exceeds eps. -/
def ReduceLROnPlateau.step (s : ReduceLROnPlateau) (loss : ℚ) :
    ReduceLROnPlateau :=
  let s1 := { s with epoch_num := s.epoch_num + 1 }
  if 0 < s1.cooldown_counter then
    { s1 with cooldown_counter := s1.cooldown_counter - 1 }
  else
    let s2 :=
      if s1.best_loss.isNone || s1.is_better loss (s1.best_loss.getD 0) then
        { s1 with best_loss := some loss, num_bad_epochs := 0 }
      else
        { s1 with num_bad_epochs := s1.num_bad_epochs + 1 }
    if s2.patience < s2.num_bad_epochs then
      let s3 := { s2 with cooldown_counter := s2.cooldown, num_bad_epochs := 0 }
      let new_lr := max (s3.learning_rate.val * s3.decay_rate) s3.min_lr
      if s3.eps < s3.learning_rate.val - new_lr then
        { s3 with learning_rate := .var new_lr }
      else s3
    else s2

/-- ReduceLROnPlateau.__call__: materialize the stored rate into a tensor
handle when it is still a plain number, then return it. -/
def ReduceLROnPlateau.call (s : ReduceLROnPlateau) :
    RateValue × ReduceLROnPlateau :=
  match s.learning_rate with
  | .plain q => (.var q, { s with learning_rate := .var q })
  | .var q => (.var q, s)

/-- The non-cooldown transition of ReduceLROnPlateau.step exactly as the
specification describes it: one improvement test, one patience test, one
clamped candidate committed only when the reduction exceeds eps. -/
def plateauSpecStep (s : ReduceLROnPlateau) (loss : ℚ) :
    ReduceLROnPlateau :=
  let improved : Bool :=
    s.best_loss.isNone || s.is_better loss (s.best_loss.getD 0)
  let best1 : Option ℚ := if improved then some loss else s.best_loss
  let bad1 : ℕ := if improved then 0 else s.num_bad_epochs + 1
  let reduce : Bool := decide (s.patience < bad1)
  let candidate : ℚ := max (s.learning_rate.val * s.decay_rate) s.min_lr
  { s with
    epoch_num := s.epoch_num + 1
    best_loss := best1
    num_bad_epochs := if reduce then 0 else bad1
    cooldown_counter := if reduce then s.cooldown else s.cooldown_counter
    learning_rate :=
      if reduce && decide (s.eps < s.learning_rate.val - candidate) then
        .var candidate
      else s.learning_rate }

/-- A wrapped LearningRateDecay scheduler as the warmup wrapper sees it:
its step counter, its step size, and its abstract step() hook as a pure
function of the step counter. -/
structure LRDecay where
  step_num : ℕ
  step_size : ℕ
  rate : ℕ → ℚ

/-- LearningRateDecay.__call__ on a wrapped scheduler: compute the rate at
the current step counter, then advance the counter by the step size. -/
def LRDecay.call (d : LRDecay) : ℚ × LRDecay :=
  (d.rate d.step_num, { d with step_num := d.step_num + d.step_size })

/-- The learning_rate attribute of LinearLrWarmup: either a plain constant
or a wrapped scheduler. -/
inductive BaseLr where
  | const (c : ℚ)
  | sched (d : LRDecay)

/-- The current value the wrapped base would produce, without advancing. -/
def BaseLr.currentValue : BaseLr → ℚ
  | .const c => c
  | .sched d => d.rate d.step_num

/-- The state of a LinearLrWarmup scheduler. -/
structure LinearLrWarmup where
  step_num : ℕ
  step_size : ℕ
  warmup_steps : ℕ
  start_lr : ℚ
  lr_ratio_before_warmup : ℚ
  learning_rate : BaseLr

/-- LinearLrWarmup.__init__: the source asserts end_lr > start_lr (an
assert statement, hence AssertionError) and computes the warmup ratio
once. -/
def LinearLrWarmup.init (learning_rate : BaseLr) (warmup_steps : ℕ)
    (start_lr end_lr : ℚ) (begin_num step_size : ℕ) :
    Except PyError LinearLrWarmup :=
  if start_lr < end_lr then
    .ok
      { step_num := begin_num
        step_size := step_size
        warmup_steps := warmup_steps
        start_lr := start_lr
        lr_ratio_before_warmup :=
          (end_lr - start_lr) / (warmup_steps : ℚ)
        learning_rate := learning_rate }
  else .error .assertionError

/-- LinearLrWarmup.step: the source first obtains base_lr, invoking (and
thereby advancing) the wrapped scheduler when there is one, and only then
branches on the warmup window. -/
def LinearLrWarmup.step (s : LinearLrWarmup) : ℚ × LinearLrWarmup :=
  let p : ℚ × LinearLrWarmup :=
    match s.learning_rate with
    | .const c => (c, s)
    | .sched d =>
      let r := d.call
      (r.1, { s with learning_rate := .sched r.2 })
  if s.step_num < s.warmup_steps then
    (s.lr_ratio_before_warmup * (s.step_num : ℚ) + s.start_lr, p.2)
  else p

/-- PolynomialDecay.step as a function of the immutable configuration and
the current step counter.  Exponentiation by the float power parameter is
real rpow. -/
noncomputable def polynomialDecayStep (learning_rate end_learning_rate power : ℝ)
    (decay_steps : ℕ) (cycle : Bool) (step_num : ℕ) : ℝ :=
  if cycle then
    let div_res : ℝ := (⌈(step_num : ℝ) / (decay_steps : ℝ)⌉ : ℤ)
    let div_res : ℝ := if step_num = 0 then 1 else div_res
    let tmp_decay_steps : ℝ := (decay_steps : ℝ) * div_res
    (learning_rate - end_learning_rate) *
        (1 - (step_num : ℝ) / tmp_decay_steps) ^ power
      + end_learning_rate
  else
    let tmp_step_num : ℝ :=
      if step_num < decay_steps then (step_num : ℝ) else (decay_steps : ℝ)
    (learning_rate - end_learning_rate) *
        (1 - tmp_step_num / (decay_steps : ℝ)) ^ power
      + end_learning_rate

/-- The decayed rate exactly as the specification phrases it, through an
effective step and an effective horizon. -/
noncomputable def polynomialClaimRate (learning_rate end_learning_rate power : ℝ)
    (decay_steps : ℕ) (cycle : Bool) (step_num : ℕ) : ℝ :=
  let divisor : ℝ :=
    if step_num = 0 then 1 else (⌈(step_num : ℝ) / (decay_steps : ℝ)⌉ : ℤ)
  let effectiveStep : ℝ :=
    if cycle then (step_num : ℝ) else min (step_num : ℝ) (decay_steps : ℝ)
  let horizon : ℝ :=
    if cycle then (decay_steps : ℝ) * divisor else (decay_steps : ℝ)
  (learning_rate - end_learning_rate) * (1 - effectiveStep / horizon) ^ power
    + end_learning_rate

/-- NoamDecay.step as a function of the immutable configuration and the
current step counter. -/
noncomputable def noamDecayStep (learning_rate : ℝ) (d_model warmup_steps : ℕ)
    (step_num : ℕ) : ℝ :=
  let a : ℝ := (step_num : ℝ) ^ (-(1 / 2) : ℝ)
  let b : ℝ := ((warmup_steps : ℝ) ^ (-(3 / 2) : ℝ)) * (step_num : ℝ)
  learning_rate * ((d_model : ℝ) ^ (-(1 / 2) : ℝ)) * min a b

/-- Concrete wrapped scheduler used to exercise LinearLrWarmup.step. -/
def c1Sched : LRDecay :=
  { step_num := 3, step_size := 1, rate := fun n => (n : ℚ) }

/-- Concrete warmup wrapper, still inside its warmup window, wrapping the
concrete scheduler above. -/
def c1Warmup : LinearLrWarmup :=
  { step_num := 2, step_size := 1, warmup_steps := 10, start_lr := 0,
    lr_ratio_before_warmup := 1 / 100, learning_rate := .sched c1Sched }

/-- The step counter of the wrapped scheduler, for observing whether a
warmup step advanced it. -/
def wrappedStepNum (s : LinearLrWarmup) : ℕ :=
  match s.learning_rate with
  | .sched d => d.step_num
  | .const _ => 0

/-- A concrete plateau scheduler state inside its cooldown window. -/
def plateauCooling : ReduceLROnPlateau :=
  { mode := .min, decay_rate := 1 / 2, patience := 1, verbose := false,
    threshold := 1 / 1000, threshold_mode := .rel, cooldown := 3,
    min_lr := 1 / 100, eps := 0, learning_rate := .var 1,
    cooldown_counter := 2, best_loss := some 5, num_bad_epochs := 1,
    epoch_num := 7 }

/-- The same concrete plateau scheduler state, outside cooldown. -/
def plateauActive : ReduceLROnPlateau :=
  { plateauCooling with cooldown_counter := 0 }

/-- The plateau instance refuting the monotone-decrease claim: minimum
mode, decay rate one half, zero patience, min_lr above the current rate
and a negative eps, exactly as the constructor builds it. -/
def plateauNegEps : ReduceLROnPlateau :=
  { mode := .min, decay_rate := 1 / 2, patience := 0, verbose := false,
    threshold := 1 / 10000, threshold_mode := .rel, cooldown := 0,
    min_lr := 5, eps := -10, learning_rate := .plain (1 / 10),
    cooldown_counter := 0, best_loss := none, num_bad_epochs := 0,
    epoch_num := 0 }

theorem attrLookup_attrSet {V : Type} (st : List (String × V)) (k k1 : String)
    (v : V) :
    attrLookup (attrSet st k v) k1 = if k = k1 then some v else attrLookup st k1 := by
  induction st with
  | nil => by_cases h : k = k1 <;> simp [attrSet, attrLookup, h]
  | cons p rest ih =>
    obtain ⟨k2, v2⟩ := p
    by_cases h2 : k2 = k
    · subst h2
      by_cases h1 : k2 = k1 <;> simp [attrSet, attrLookup, h1]
    · by_cases h1 : k = k1
      · subst h1
        simp [attrSet, attrLookup, h2, ih, Ne.symm h2]
      · by_cases h3 : k2 = k1 <;>
          simp [attrSet, attrLookup, h2, h3, ih, h1, Ne.symm h1]

theorem setStateDictLoop_err_none {V : Type} (sd : List (String × V))
    (keys : List String) (st : List (String × V))
    (h : ∀ k ∈ keys, (attrLookup sd k).isSome = true) :
    (setStateDictLoop sd keys st).2 = none := by
  induction keys generalizing st with
  | nil => rfl
  | cons k ks ih =>
    obtain ⟨v, hv⟩ := Option.isSome_iff_exists.mp (h k (List.mem_cons_self k ks))
    simp only [setStateDictLoop, hv]
    exact ih (attrSet st k v) (fun k2 hk2 => h k2 (List.mem_cons_of_mem k hk2))

theorem setStateDictLoop_notmem {V : Type} (sd : List (String × V))
    (keys : List String) (st : List (String × V)) (k1 : String)
    (h : k1 ∉ keys) :
    attrLookup (setStateDictLoop sd keys st).1 k1 = attrLookup st k1 := by
  induction keys generalizing st with
  | nil => rfl
  | cons k ks ih =>
    have hne : k ≠ k1 := fun he => h (he ▸ List.mem_cons_self k ks)
    have hnot : k1 ∉ ks := fun hm => h (List.mem_cons_of_mem k hm)
    simp only [setStateDictLoop]
    cases hv : attrLookup sd k with
    | none => rfl
    | some v =>
      rw [ih (attrSet st k v) hnot, attrLookup_attrSet, if_neg hne]

theorem setStateDictLoop_mem {V : Type} (sd : List (String × V))
    (keys : List String) (st : List (String × V))
    (h : ∀ k ∈ keys, (attrLookup sd k).isSome = true) :
    ∀ k ∈ keys, attrLookup (setStateDictLoop sd keys st).1 k = attrLookup sd k := by
  induction keys generalizing st with
  | nil => intro k hk; exact absurd hk (List.not_mem_nil k)
  | cons k ks ih =>
    obtain ⟨v, hv⟩ := Option.isSome_iff_exists.mp (h k (List.mem_cons_self k ks))
    intro k1 hk1
    simp only [setStateDictLoop, hv]
    have htail := fun k2 hk2 => h k2 (List.mem_cons_of_mem k hk2)
    by_cases hmem : k1 ∈ ks
    · exact ih (attrSet st k v) htail k1 hmem
    · have hk1k : k1 = k := by
        rcases List.mem_cons.mp hk1 with h1 | h1
        · exact h1
        · exact absurd h1 hmem
      subst hk1k
      have := setStateDictLoop_notmem sd ks (attrSet st k1 v) k1 hmem
      rw [this, attrLookup_attrSet, if_pos rfl, hv]

theorem setStateDictLoop_missing {V : Type} (sd : List (String × V))
    (keys : List String) (st : List (String × V))
    (h : ∃ k ∈ keys, attrLookup sd k = none) :
    (setStateDictLoop sd keys st).2 = some .runtimeError := by
  induction keys generalizing st with
  | nil => obtain ⟨k, hk, _⟩ := h; exact absurd hk (List.not_mem_nil k)
  | cons k ks ih =>
    simp only [setStateDictLoop]
    cases hv : attrLookup sd k with
    | none => rfl
    | some v =>
      obtain ⟨k1, hk1, hnone⟩ := h
      rcases List.mem_cons.mp hk1 with he | hm
      · subst he; rw [hv] at hnone; exact absurd hnone (by simp)
      · exact ih (attrSet st k v) ⟨k1, hm, hnone⟩

/-- C2 (amended): set_state_dict fails with an error when some declared key
is missing from the mapping, but declared keys preceding the first missing
one are already restored, so the abort is not atomic; when every declared
key is present the restore runs to completion, attributes outside the
declared keys are untouched, and surplus entries only raise the warning
flag. -/
theorem set_state_dict_spec {V : Type} (keys : List String)
    (sd st : List (String × V)) :
    ((∃ k ∈ keys, attrLookup sd k = none) →
      (set_state_dict keys sd st).1.2 = some .runtimeError) ∧
    ((∀ k ∈ keys, (attrLookup sd k).isSome = true) →
      (set_state_dict keys sd st).1.2 = none ∧
      (∀ k ∈ keys,
        attrLookup (set_state_dict keys sd st).1.1 k = attrLookup sd k) ∧
      (∀ k, k ∉ keys →
        attrLookup (set_state_dict keys sd st).1.1 k = attrLookup st k) ∧
      ((set_state_dict keys sd st).2 = true ↔ keys.length < sd.length)) := by
  constructor
  · intro h
    exact setStateDictLoop_missing sd keys st h
  · intro h
    have he := setStateDictLoop_err_none sd keys st h
    refine ⟨he, setStateDictLoop_mem sd keys st h,
      fun k hk => setStateDictLoop_notmem sd keys st k hk, ?_⟩
    simp [set_state_dict, he]

/-- Witness for C2: a one-key scheduler, a mapping holding that key and a
surplus entry; the restore succeeds and the warning flag is raised. -/
theorem set_state_dict_spec_witness :
    (∀ k ∈ ["step_num"],
      (attrLookup [("step_num", (5 : ℚ)), ("extra", 1)] k).isSome = true) ∧
    ((set_state_dict ["step_num"] [("step_num", (5 : ℚ)), ("extra", 1)]
        [("step_num", 0)]).1.2 = none ∧
      (∀ k ∈ ["step_num"],
        attrLookup (set_state_dict ["step_num"]
          [("step_num", (5 : ℚ)), ("extra", 1)] [("step_num", 0)]).1.1 k =
        attrLookup [("step_num", (5 : ℚ)), ("extra", 1)] k) ∧
      (∀ k, k ∉ ["step_num"] →
        attrLookup (set_state_dict ["step_num"]
          [("step_num", (5 : ℚ)), ("extra", 1)] [("step_num", 0)]).1.1 k =
        attrLookup [("step_num", (0 : ℚ))] k) ∧
      ((set_state_dict ["step_num"] [("step_num", (5 : ℚ)), ("extra", 1)]
          [("step_num", 0)]).2 = true ↔
        List.length ["step_num"] <
          List.length [("step_num", (5 : ℚ)), ("extra", 1)])) :=
  ⟨by decide,
    (set_state_dict_spec ["step_num"] [("step_num", (5 : ℚ)), ("extra", 1)]
      [("step_num", 0)]).2 (by decide)⟩

/-- C2 is refuted as it is stated: with the ReduceLROnPlateau key list, a
mapping that contains the first declared key but misses the second raises
the RuntimeError only after the first key was already overwritten, so
after the failure the scheduler does not keep all its pre-call values. -/
theorem set_state_dict_partial_restore :
    (set_state_dict plateauKeys [("cooldown_counter", (7 : ℚ))]
        [("cooldown_counter", 0), ("best_loss", 1)]).1.2 =
      some .runtimeError ∧
    attrLookup (set_state_dict plateauKeys [("cooldown_counter", (7 : ℚ))]
        [("cooldown_counter", 0), ("best_loss", 1)]).1.1
        ("cooldown_counter") = some 7 ∧
    attrLookup [("cooldown_counter", (0 : ℚ)), ("best_loss", 1)]
        ("cooldown_counter") = some 0 ∧
    (7 : ℚ) ≠ 0 := by
  decide

theorem state_dict_ok (keys : List String) (st : List (String × PyVal))
    (h : ∀ k ∈ keys, exportReady st k = true) :
    ∃ sd, state_dict keys st = .ok sd ∧ sd.length = keys.length ∧
      ∀ k1, attrLookup sd k1 =
        if k1 ∈ keys then (attrLookup st k1).map unwrapVal else none := by
  induction keys with
  | nil => exact ⟨[], rfl, rfl, by simp [attrLookup]⟩
  | cons k ks ih =>
    have hk := h k (List.mem_cons_self k ks)
    obtain ⟨sd, hsd, hlen, hlook⟩ :=
      ih (fun k2 hk2 => h k2 (List.mem_cons_of_mem k hk2))
    cases hv : attrLookup st k with
    | none => rw [exportReady, hv] at hk; exact absurd hk (by simp)
    | some v =>
      have hstep : state_dict (k :: ks) st = .ok ((k, unwrapVal v) :: sd) := by
        cases v with
        | tensor l =>
          have hl : l.length = 1 := by
            rw [exportReady, hv] at hk; simpa using hk
          simp [state_dict, hv, hl, hsd, Except.map, unwrapVal]
        | num q => simp [state_dict, hv, hsd, Except.map, unwrapVal]
        | pynone => simp [state_dict, hv, hsd, Except.map, unwrapVal]
      refine ⟨(k, unwrapVal v) :: sd, hstep, by simp [hlen], ?_⟩
      intro k1
      by_cases he : k = k1
      · subst he
        simp [attrLookup, hv]
      · have he1 : ¬k1 = k := fun hh => he hh.symm
        simp [attrLookup, he, he1, hlook k1, List.mem_cons]

theorem state_dict_err (keys : List String) (st : List (String × PyVal))
    (h : ∃ k ∈ keys, exportBadTensor st k = true) :
    state_dict keys st = .error .assertionError := by
  induction keys with
  | nil => obtain ⟨k, hk, _⟩ := h; exact absurd hk (List.not_mem_nil k)
  | cons k ks ih =>
    obtain ⟨k1, hk1, hbad⟩ := h
    cases hv : attrLookup st k with
    | none =>
      have hm : k1 ∈ ks := by
        rcases List.mem_cons.mp hk1 with he | hm
        · subst he; simp [exportBadTensor, hv] at hbad
        · exact hm
      simp [state_dict, hv, ih ⟨k1, hm, hbad⟩]
    | some v =>
      cases v with
      | tensor l =>
        by_cases hl : l.length = 1
        · have hm : k1 ∈ ks := by
            rcases List.mem_cons.mp hk1 with he | hm
            · subst he; simp [exportBadTensor, hv, hl] at hbad
            · exact hm
          simp [state_dict, hv, hl, ih ⟨k1, hm, hbad⟩, Except.map]
        · simp [state_dict, hv, hl]
      | num q =>
        have hm : k1 ∈ ks := by
          rcases List.mem_cons.mp hk1 with he | hm
          · subst he; simp [exportBadTensor, hv] at hbad
          · exact hm
        simp [state_dict, hv, ih ⟨k1, hm, hbad⟩, Except.map]
      | pynone =>
        have hm : k1 ∈ ks := by
          rcases List.mem_cons.mp hk1 with he | hm
          · subst he; simp [exportBadTensor, hv] at hbad
          · exact hm
        simp [state_dict, hv, ih ⟨k1, hm, hbad⟩, Except.map]

/-- C8: when every declared key is present and every tensor among them
holds exactly one element, set_state_dict applied to state_dict restores
the identical observable state: no error, no warning, every declared key
keeps its numeric value with tensors unwrapped to plain numbers, every
other attribute untouched; and when some declared tensor field holds a
different number of elements the export fails with the size assertion. -/
theorem state_roundtrip (keys : List String) (st : List (String × PyVal)) :
    ((∀ k ∈ keys, exportReady st k = true) →
      ∃ sd, state_dict keys st = .ok sd ∧
        (set_state_dict keys sd st).1.2 = none ∧
        (set_state_dict keys sd st).2 = false ∧
        (∀ k ∈ keys,
          attrLookup (set_state_dict keys sd st).1.1 k =
            (attrLookup st k).map unwrapVal) ∧
        (∀ k, k ∉ keys →
          attrLookup (set_state_dict keys sd st).1.1 k = attrLookup st k)) ∧
    ((∃ k ∈ keys, exportBadTensor st k = true) →
      state_dict keys st = .error .assertionError) := by
  constructor
  · intro h
    obtain ⟨sd, hsd, hlen, hlook⟩ := state_dict_ok keys st h
    have hsome : ∀ k ∈ keys, (attrLookup sd k).isSome = true := by
      intro k hk
      rw [hlook k, if_pos hk]
      cases hv : attrLookup st k with
      | none =>
        have hk2 := h k hk
        rw [exportReady, hv] at hk2
        exact absurd hk2 (by simp)
      | some v => simp
    have he := setStateDictLoop_err_none sd keys st hsome
    refine ⟨sd, hsd, he, ?_, ?_, ?_⟩
    · simp [set_state_dict, he, hlen]
    · intro k hk
      have hr : (set_state_dict keys sd st).1.1 =
          (setStateDictLoop sd keys st).1 := rfl
      rw [hr, setStateDictLoop_mem sd keys st hsome k hk, hlook k, if_pos hk]
    · intro k hk
      exact setStateDictLoop_notmem sd keys st k hk
  · exact state_dict_err keys st

/-- Witness for C8: the epoch-policy key set over an object whose rate is
held in a single-element tensor round-trips without error or warning. -/
theorem state_roundtrip_witness :
    (∀ k ∈ ["epoch_num", "learning_rate"],
      exportReady [("epoch_num", PyVal.num 3),
        ("learning_rate", PyVal.tensor [1 / 2]),
        ("other", PyVal.num 9)] k = true) ∧
    (∃ sd, state_dict ["epoch_num", "learning_rate"]
        [("epoch_num", PyVal.num 3), ("learning_rate", PyVal.tensor [1 / 2]),
          ("other", PyVal.num 9)] = .ok sd ∧
      (set_state_dict ["epoch_num", "learning_rate"] sd
        [("epoch_num", PyVal.num 3), ("learning_rate", PyVal.tensor [1 / 2]),
          ("other", PyVal.num 9)]).1.2 = none ∧
      (set_state_dict ["epoch_num", "learning_rate"] sd
        [("epoch_num", PyVal.num 3), ("learning_rate", PyVal.tensor [1 / 2]),
          ("other", PyVal.num 9)]).2 = false ∧
      (∀ k ∈ ["epoch_num", "learning_rate"],
        attrLookup (set_state_dict ["epoch_num", "learning_rate"] sd
          [("epoch_num", PyVal.num 3),
            ("learning_rate", PyVal.tensor [1 / 2]),
            ("other", PyVal.num 9)]).1.1 k =
        (attrLookup [("epoch_num", PyVal.num 3),
            ("learning_rate", PyVal.tensor [1 / 2]),
            ("other", PyVal.num 9)] k).map unwrapVal) ∧
      (∀ k, k ∉ ["epoch_num", "learning_rate"] →
        attrLookup (set_state_dict ["epoch_num", "learning_rate"] sd
          [("epoch_num", PyVal.num 3),
            ("learning_rate", PyVal.tensor [1 / 2]),
            ("other", PyVal.num 9)]).1.1 k =
        attrLookup [("epoch_num", PyVal.num 3),
            ("learning_rate", PyVal.tensor [1 / 2]),
            ("other", PyVal.num 9)] k)) :=
  ⟨by decide,
    (state_roundtrip ["epoch_num", "learning_rate"]
      [("epoch_num", PyVal.num 3), ("learning_rate", PyVal.tensor [1 / 2]),
        ("other", PyVal.num 9)]).1 (by decide)⟩

/-- C10: reading the current rate via the call form never mutates the
plateau scheduler state beyond materializing the stored rate into a tensor
handle holding the same numeric value; every counter, the best loss and
the rate value are unchanged, and only step mutates the policy state. -/
theorem plateau_call_pure (s : ReduceLROnPlateau) :
    (ReduceLROnPlateau.call s).1 = .var s.learning_rate.val ∧
    (ReduceLROnPlateau.call s).2 =
      { s with learning_rate := .var s.learning_rate.val } := by
  obtain ⟨m, dr, p, vb, th, tm, cd, ml, ep, lr, cc, bl, nb, en⟩ := s
  cases lr <;> simp [ReduceLROnPlateau.call, RateValue.val]

theorem plateau_step_in_cooldown (s : ReduceLROnPlateau) (loss : ℚ)
    (h : 0 < s.cooldown_counter) :
    s.step loss = { s with epoch_num := s.epoch_num + 1,
                           cooldown_counter := s.cooldown_counter - 1 } := by
  simp [ReduceLROnPlateau.step, h]

theorem plateau_fold_cooldown (losses : List ℚ) :
    ∀ s : ReduceLROnPlateau, losses.length ≤ s.cooldown_counter →
      (losses.foldl ReduceLROnPlateau.step s).best_loss = s.best_loss ∧
      (losses.foldl ReduceLROnPlateau.step s).num_bad_epochs =
        s.num_bad_epochs ∧
      (losses.foldl ReduceLROnPlateau.step s).learning_rate =
        s.learning_rate ∧
      (losses.foldl ReduceLROnPlateau.step s).cooldown_counter =
        s.cooldown_counter - losses.length ∧
      (losses.foldl ReduceLROnPlateau.step s).epoch_num =
        s.epoch_num + losses.length := by
  induction losses with
  | nil => intro s h; simp
  | cons l ls ih =>
    intro s h
    simp only [List.length_cons] at h
    have hpos : 0 < s.cooldown_counter := by omega
    rw [List.foldl_cons, plateau_step_in_cooldown s l hpos]
    obtain ⟨h1, h2, h3, h4, h5⟩ :=
      ih { s with epoch_num := s.epoch_num + 1,
                  cooldown_counter := s.cooldown_counter - 1 }
        (by simp; omega)
    refine ⟨by simpa using h1, by simpa using h2, by simpa using h3, ?_, ?_⟩
    · simp only [List.length_cons]
      simp at h4
      omega
    · simp only [List.length_cons]
      simp at h5
      omega

/-- C5: while the cooldown counter is positive, a step call only advances
the epoch counter and decrements the cooldown counter by one; hence over
any sequence of at most cooldown_counter step calls, so in particular the
cooldown calls right after a reduction, the best loss, the bad-epoch count
and the learning rate are untouched while the counter runs down. -/
theorem plateau_cooldown_spec (s : ReduceLROnPlateau) (loss : ℚ)
    (h : 0 < s.cooldown_counter) :
    s.step loss = { s with epoch_num := s.epoch_num + 1,
                           cooldown_counter := s.cooldown_counter - 1 } ∧
    (∀ losses : List ℚ, losses.length ≤ s.cooldown_counter →
      (losses.foldl ReduceLROnPlateau.step s).best_loss = s.best_loss ∧
      (losses.foldl ReduceLROnPlateau.step s).num_bad_epochs =
        s.num_bad_epochs ∧
      (losses.foldl ReduceLROnPlateau.step s).learning_rate =
        s.learning_rate ∧
      (losses.foldl ReduceLROnPlateau.step s).cooldown_counter =
        s.cooldown_counter - losses.length) :=
  ⟨plateau_step_in_cooldown s loss h,
    fun losses hl =>
      ⟨(plateau_fold_cooldown losses s hl).1,
       (plateau_fold_cooldown losses s hl).2.1,
       (plateau_fold_cooldown losses s hl).2.2.1,
       (plateau_fold_cooldown losses s hl).2.2.2.1⟩⟩

/-- Witness for C5 on a concrete cooling state with counter two. -/
theorem plateau_cooldown_spec_witness :
    0 < plateauCooling.cooldown_counter ∧
    (plateauCooling.step 4 =
      { plateauCooling with
          epoch_num := plateauCooling.epoch_num + 1,
          cooldown_counter := plateauCooling.cooldown_counter - 1 } ∧
    (∀ losses : List ℚ, losses.length ≤ plateauCooling.cooldown_counter →
      (losses.foldl ReduceLROnPlateau.step plateauCooling).best_loss =
        plateauCooling.best_loss ∧
      (losses.foldl ReduceLROnPlateau.step plateauCooling).num_bad_epochs =
        plateauCooling.num_bad_epochs ∧
      (losses.foldl ReduceLROnPlateau.step plateauCooling).learning_rate =
        plateauCooling.learning_rate ∧
      (losses.foldl ReduceLROnPlateau.step plateauCooling).cooldown_counter =
        plateauCooling.cooldown_counter - losses.length)) :=
  ⟨by decide, plateau_cooldown_spec plateauCooling 4 (by decide)⟩

theorem is_better_epoch_bump (s : ReduceLROnPlateau) (e : ℕ) (c b : ℚ) :
    ReduceLROnPlateau.is_better { s with epoch_num := e } c b =
      s.is_better c b := rfl

/-- C3: outside cooldown, a step call performs exactly the transition the
specification describes: epoch incremented, the best-loss or bad-epoch
bookkeeping updated by the improvement test, and on exceeding the patience
a reset of cooldown and bad epochs with the clamped candidate committed to
the learning rate exactly when the reduction exceeds eps; and the
improvement test is the four-case threshold table. -/
theorem plateau_step_spec (s : ReduceLROnPlateau) (loss : ℚ)
    (h : s.cooldown_counter = 0) :
    s.step loss = plateauSpecStep s loss ∧
    (∀ current best : ℚ,
      s.is_better current best = true ↔
        ((s.mode = .min ∧ s.threshold_mode = .rel ∧
            current < best - best * s.threshold) ∨
         (s.mode = .min ∧ s.threshold_mode = .abs ∧
            current < best - s.threshold) ∨
         (s.mode = .max ∧ s.threshold_mode = .rel ∧
            best + best * s.threshold < current) ∨
         (s.mode = .max ∧ s.threshold_mode = .abs ∧
            best + s.threshold < current))) := by
  constructor
  · have h0 : ¬ 0 < s.cooldown_counter := by omega
    by_cases hi :
      (s.best_loss = none ∨ s.is_better loss (s.best_loss.getD 0) = true)
    · simp [ReduceLROnPlateau.step, plateauSpecStep, is_better_epoch_bump,
        h0, hi]
    · by_cases hp : s.patience < s.num_bad_epochs + 1
      · by_cases he :
          s.eps < s.learning_rate.val -
            max (s.learning_rate.val * s.decay_rate) s.min_lr
        · simp [ReduceLROnPlateau.step, plateauSpecStep, is_better_epoch_bump,
            h0, hi, hp, he]
        · simp [ReduceLROnPlateau.step, plateauSpecStep, is_better_epoch_bump,
            h0, hi, hp, he]
      · simp [ReduceLROnPlateau.step, plateauSpecStep, is_better_epoch_bump,
          h0, hi, hp]
  · intro c b
    cases hm : s.mode <;> cases ht : s.threshold_mode <;>
      simp [ReduceLROnPlateau.is_better, hm, ht]

/-- Witness for C3 on a concrete non-cooldown state. -/
theorem plateau_step_spec_witness :
    plateauActive.cooldown_counter = 0 ∧
    (plateauActive.step 4 = plateauSpecStep plateauActive 4 ∧
    (∀ current best : ℚ,
      plateauActive.is_better current best = true ↔
        ((plateauActive.mode = .min ∧ plateauActive.threshold_mode = .rel ∧
            current < best - best * plateauActive.threshold) ∨
         (plateauActive.mode = .min ∧ plateauActive.threshold_mode = .abs ∧
            current < best - plateauActive.threshold) ∨
         (plateauActive.mode = .max ∧ plateauActive.threshold_mode = .rel ∧
            best + best * plateauActive.threshold < current) ∨
         (plateauActive.mode = .max ∧ plateauActive.threshold_mode = .abs ∧
            best + plateauActive.threshold < current)))) :=
  ⟨by decide, plateau_step_spec plateauActive 4 (by decide)⟩

theorem plateau_step_lr_cases (s : ReduceLROnPlateau) (loss : ℚ) :
    ((s.step loss).learning_rate = s.learning_rate ∨
      ((s.step loss).learning_rate.val =
          max (s.learning_rate.val * s.decay_rate) s.min_lr ∧
        s.eps < s.learning_rate.val - (s.step loss).learning_rate.val)) ∧
    (s.step loss).eps = s.eps ∧
    (s.step loss).min_lr = s.min_lr := by
  by_cases hc : 0 < s.cooldown_counter
  · simp [ReduceLROnPlateau.step, hc]
  · by_cases hi :
      (s.best_loss = none ∨ s.is_better loss (s.best_loss.getD 0) = true)
    · simp [ReduceLROnPlateau.step, is_better_epoch_bump, hc, hi]
    · by_cases hp : s.patience < s.num_bad_epochs + 1
      · by_cases he :
          s.eps < s.learning_rate.val -
            max (s.learning_rate.val * s.decay_rate) s.min_lr
        · have hstep : s.step loss =
              { s with epoch_num := s.epoch_num + 1,
                       cooldown_counter := s.cooldown,
                       num_bad_epochs := 0,
                       learning_rate :=
                         .var (max (s.learning_rate.val * s.decay_rate)
                           s.min_lr) } := by
            simp [ReduceLROnPlateau.step, is_better_epoch_bump, hc, hi, hp, he]
          refine ⟨Or.inr ⟨?_, ?_⟩, ?_, ?_⟩
          · rw [hstep]
            rfl
          · rw [hstep]; exact he
          · rw [hstep]
          · rw [hstep]
        · simp [ReduceLROnPlateau.step, is_better_epoch_bump, hc, hi, hp, he]
      · simp [ReduceLROnPlateau.step, is_better_epoch_bump, hc, hi, hp]

theorem plateau_fold_lr (losses : List ℚ) :
    ∀ s : ReduceLROnPlateau, 0 ≤ s.eps →
      (losses.foldl ReduceLROnPlateau.step s).learning_rate.val ≤
        s.learning_rate.val ∧
      (s.min_lr ≤ s.learning_rate.val →
        s.min_lr ≤
          (losses.foldl ReduceLROnPlateau.step s).learning_rate.val) ∧
      (losses.foldl ReduceLROnPlateau.step s).eps = s.eps ∧
      (losses.foldl ReduceLROnPlateau.step s).min_lr = s.min_lr := by
  induction losses with
  | nil => intro s h; exact ⟨le_refl _, fun hm => hm, rfl, rfl⟩
  | cons l ls ih =>
    intro s h
    obtain ⟨hcase, heps, hmin⟩ := plateau_step_lr_cases s l
    obtain ⟨ih1, ih2, ih3, ih4⟩ := ih (s.step l) (heps ▸ h)
    rw [List.foldl_cons]
    have hstep_le : (s.step l).learning_rate.val ≤ s.learning_rate.val ∧
        (s.min_lr ≤ s.learning_rate.val →
          s.min_lr ≤ (s.step l).learning_rate.val) := by
      rcases hcase with hsame | ⟨hmax, hlt⟩
      · rw [hsame]
        exact ⟨le_refl _, fun hm => hm⟩
      · constructor
        · linarith
        · intro hm
          rw [hmax]
          exact le_max_right _ _
    refine ⟨le_trans ih1 hstep_le.1, ?_, by rw [ih3, heps],
      by rw [ih4, hmin]⟩
    intro hm
    have := ih2 (by rw [hmin]; exact hstep_le.2 hm)
    rw [hmin] at this
    exact this

/-- C4 (amended): for a plateau scheduler whose eps is nonnegative, each
step call leaves the learning rate unchanged or strictly smaller, over any
sequence of step calls the rate never increases, and once at or above
min_lr it never falls below min_lr (a committed reduction is always
clamped at min_lr). -/
theorem plateau_lr_monotone (s : ReduceLROnPlateau) (losses : List ℚ)
    (h : 0 ≤ s.eps) :
    (∀ loss : ℚ,
      (s.step loss).learning_rate.val = s.learning_rate.val ∨
      (s.step loss).learning_rate.val < s.learning_rate.val) ∧
    (losses.foldl ReduceLROnPlateau.step s).learning_rate.val ≤
      s.learning_rate.val ∧
    (s.min_lr ≤ s.learning_rate.val →
      s.min_lr ≤ (losses.foldl ReduceLROnPlateau.step s).learning_rate.val) := by
  refine ⟨?_, (plateau_fold_lr losses s h).1, (plateau_fold_lr losses s h).2.1⟩
  intro loss
  rcases (plateau_step_lr_cases s loss).1 with hsame | ⟨_, hlt⟩
  · exact Or.inl (by rw [hsame])
  · exact Or.inr (by linarith)

/-- Witness for C4 on a concrete state with zero eps. -/
theorem plateau_lr_monotone_witness :
    (0 : ℚ) ≤ plateauActive.eps ∧
    ((∀ loss : ℚ,
      (plateauActive.step loss).learning_rate.val =
          plateauActive.learning_rate.val ∨
      (plateauActive.step loss).learning_rate.val <
          plateauActive.learning_rate.val) ∧
    ([6, 7].foldl ReduceLROnPlateau.step plateauActive).learning_rate.val ≤
      plateauActive.learning_rate.val ∧
    (plateauActive.min_lr ≤ plateauActive.learning_rate.val →
      plateauActive.min_lr ≤
        ([6, 7].foldl ReduceLROnPlateau.step
          plateauActive).learning_rate.val)) :=
  ⟨by decide, plateau_lr_monotone plateauActive [6, 7] (by decide)⟩

/-- C4 is refuted as it is stated: the constructor accepts a negative eps,
and with min_lr above the current rate the commit test passes even though
the clamped candidate is larger, so a step strictly increases the
learning rate of a constructible instance whose decay rate is below one. -/
theorem plateau_lr_increase :
    ReduceLROnPlateau.init (1 / 10) "min" (1 / 2) 0 false (1 / 10000)
        "rel" 0 5 (-10) = .ok plateauNegEps ∧
    plateauNegEps.decay_rate < 1 ∧
    (plateauNegEps.step 1).learning_rate.val = 1 / 10 ∧
    ((plateauNegEps.step 1).step 2).learning_rate.val = 5 ∧
    (1 : ℚ) / 10 < 5 := by
  have hs1 : plateauNegEps.step 1 =
      { plateauNegEps with epoch_num := 1, best_loss := some 1 } := by
    simp [ReduceLROnPlateau.step, plateauNegEps]
  have hnb : ¬ ((2 : ℚ) < 1 - 10000⁻¹) := by norm_num
  have hmax : max ((10 : ℚ)⁻¹ * 2⁻¹) 5 = 5 := max_eq_right (by norm_num)
  have heps : (-10 : ℚ) < 10⁻¹ - 5 := by norm_num
  have hs2 : ((plateauNegEps.step 1).step 2).learning_rate = .var 5 := by
    rw [hs1]
    simp [ReduceLROnPlateau.step, ReduceLROnPlateau.is_better, plateauNegEps,
      RateValue.val, hnb, hmax, heps]
  refine ⟨?_, ?_, ?_, ?_, by norm_num⟩
  · have hm1 : pyLower "min" = "min" := by decide
    have ht1 : pyLower "rel" = "rel" := by decide
    have hd : ¬ ((1 : ℚ) ≤ 1 / 2) := by norm_num
    simp [ReduceLROnPlateau.init, hm1, ht1, hd, plateauNegEps]
    norm_num
  · show (1 : ℚ) / 2 < 1
    norm_num
  · rw [hs1]
    rfl
  · rw [hs2]
    rfl

/-- C9 (amended): construction validation fails fast, never deferred:
ReduceLROnPlateau rejects a decay_rate of at least one, an unknown mode
and an unknown threshold_mode with ValueError, while LinearLrWarmup
rejects end_lr at or below start_lr through its assert statement, hence
with AssertionError rather than ValueError. -/
theorem construction_validation :
    (∀ (base : BaseLr) (ws bg sp : ℕ) (a b : ℚ), b ≤ a →
      LinearLrWarmup.init base ws a b bg sp = .error .assertionError) ∧
    (∀ (lr dr : ℚ) (p : ℕ) (vb : Bool) (th : ℚ) (cd : ℕ) (ml e : ℚ),
      1 ≤ dr →
      ReduceLROnPlateau.init lr "min" dr p vb th "rel" cd ml e =
        .error .valueError) ∧
    (∀ mode : String, pyLower mode ≠ "min" → pyLower mode ≠ "max" →
      ∀ (lr dr : ℚ) (p : ℕ) (vb : Bool) (th : ℚ) (tm : String) (cd : ℕ)
        (ml e : ℚ),
        ReduceLROnPlateau.init lr mode dr p vb th tm cd ml e =
          .error .valueError) ∧
    (∀ tmode : String, pyLower tmode ≠ "rel" → pyLower tmode ≠ "abs" →
      ∀ (lr dr : ℚ) (p : ℕ) (vb : Bool) (th : ℚ) (cd : ℕ) (ml e : ℚ),
        dr < 1 →
        ReduceLROnPlateau.init lr "min" dr p vb th tmode cd ml e =
          .error .valueError) := by
  have hm1 : pyLower "min" = "min" := by decide
  refine ⟨?_, ?_, ?_, ?_⟩
  · intro base ws bg sp a b hba
    simp [LinearLrWarmup.init, not_lt.mpr hba]
  · intro lr dr p vb th cd ml e hdr
    simp [ReduceLROnPlateau.init, hm1, hdr]
  · intro mode h1 h2 lr dr p vb th tm cd ml e
    simp [ReduceLROnPlateau.init, h1, h2]
  · intro tmode h1 h2 lr dr p vb th cd ml e hdr
    simp [ReduceLROnPlateau.init, hm1, h1, h2, not_le.mpr hdr]

/-- Witness for C9: equal warmup bounds are rejected with AssertionError,
and a decay rate of three halves is rejected with ValueError. -/
theorem construction_validation_witness :
    ((1 : ℚ) / 10 ≤ 1 / 10 ∧
      LinearLrWarmup.init (.const 1) 10 (1 / 10) (1 / 10) 1 1 =
        .error .assertionError) ∧
    ((1 : ℚ) ≤ 3 / 2 ∧
      ReduceLROnPlateau.init 1 "min" (3 / 2) 10 false (1 / 10000) "rel"
          0 0 0 = .error .valueError) :=
  ⟨⟨le_refl _,
    construction_validation.1 (.const 1) 10 1 1 (1 / 10) (1 / 10)
      (le_refl _)⟩,
   ⟨by norm_num,
    construction_validation.2.1 1 (3 / 2) 10 false (1 / 10000) 0 0 0
      (by norm_num)⟩⟩

/-- C9 is refuted on its LinearLrWarmup half: with end_lr equal to
start_lr the constructor does fail, but through its assert statement, so
with AssertionError and not with the ValueError the claim names. -/
theorem construction_fails_without_valueError :
    LinearLrWarmup.init (.const 1) 10 (1 / 10) (1 / 10) 1 1 =
      .error .assertionError ∧
    LinearLrWarmup.init (.const 1) 10 (1 / 10) (1 / 10) 1 1 ≠
      .error .valueError := by
  have hnot : ¬ ((1 : ℚ) / 10 < 1 / 10) := by norm_num
  constructor
  · simp [LinearLrWarmup.init, hnot]
  · simp [LinearLrWarmup.init, hnot]

/-- C1 (amended): a step inside the warmup window returns the linear ramp
value and a step at or past the window returns the wrapped base's current
value; however the wrapped scheduler, when there is one, is invoked and
advanced by every step call, inside or outside the window, while a
constant base leaves the state untouched. -/
theorem linear_warmup_step_spec (s : LinearLrWarmup) :
    (s.step_num < s.warmup_steps →
      (s.step).1 =
        s.lr_ratio_before_warmup * (s.step_num : ℚ) + s.start_lr) ∧
    (s.warmup_steps ≤ s.step_num →
      (s.step).1 = s.learning_rate.currentValue) ∧
    (∀ d : LRDecay, s.learning_rate = .sched d →
      (s.step).2.learning_rate =
        .sched { d with step_num := d.step_num + d.step_size }) ∧
    (∀ c : ℚ, s.learning_rate = .const c → (s.step).2 = s) := by
  refine ⟨?_, ?_, ?_, ?_⟩
  · intro h
    cases hb : s.learning_rate <;>
      simp [LinearLrWarmup.step, LRDecay.call, hb, h]
  · intro h
    have h2 : ¬ s.step_num < s.warmup_steps := not_lt.mpr h
    cases hb : s.learning_rate <;>
      simp [LinearLrWarmup.step, LRDecay.call, BaseLr.currentValue, hb, h2]
  · intro d hd
    by_cases h : s.step_num < s.warmup_steps <;>
      simp [LinearLrWarmup.step, LRDecay.call, hd, h]
  · intro c hc
    by_cases h : s.step_num < s.warmup_steps <;>
      simp [LinearLrWarmup.step, hc, h]

/-- Witness for C1 on the concrete warmup wrapper: a warmup-phase step
returns the ramp value and advances the wrapped scheduler. -/
theorem linear_warmup_step_spec_witness :
    c1Warmup.step_num < c1Warmup.warmup_steps ∧
    (c1Warmup.step).1 =
      c1Warmup.lr_ratio_before_warmup * (c1Warmup.step_num : ℚ) +
        c1Warmup.start_lr ∧
    (c1Warmup.step).2.learning_rate =
      .sched { c1Sched with
        step_num := c1Sched.step_num + c1Sched.step_size } :=
  ⟨by decide, (linear_warmup_step_spec c1Warmup).1 (by decide),
    (linear_warmup_step_spec c1Warmup).2.2.1 c1Sched rfl⟩

/-- C1 is refuted as it is stated: on a warmup-phase step the returned
rate is the linear ramp, yet the wrapped scheduler has been invoked and
advanced, its step counter moving from three to four. -/
theorem linear_warmup_base_advanced :
    c1Warmup.step_num < c1Warmup.warmup_steps ∧
    wrappedStepNum c1Warmup = 3 ∧
    wrappedStepNum (c1Warmup.step).2 = 4 :=
  ⟨by decide, rfl, rfl⟩

theorem rpow_neg_half_eq (x : ℝ) (hx : 0 ≤ x) :
    x ^ (-(1 / 2) : ℝ) = (Real.sqrt x)⁻¹ := by
  rw [Real.rpow_neg hx, ← Real.sqrt_eq_rpow]

theorem rpow_neg_three_halves_eq (x : ℝ) (hx : 0 < x) :
    x ^ (-(3 / 2) : ℝ) = (x * Real.sqrt x)⁻¹ := by
  have h32 : (3 / 2 : ℝ) = 1 + 1 / 2 := by norm_num
  rw [Real.rpow_neg (le_of_lt hx), h32, Real.rpow_add hx, Real.rpow_one,
    ← Real.sqrt_eq_rpow]

theorem noam_ramp_le_decay (w k : ℕ) (h1 : 1 ≤ k) (h2 : k ≤ w) :
    ((w : ℝ) ^ (-(3 / 2) : ℝ)) * (k : ℝ) ≤ (k : ℝ) ^ (-(1 / 2) : ℝ) := by
  have hk : (0 : ℝ) < k := by exact_mod_cast h1
  have hw : (0 : ℝ) < w := lt_of_lt_of_le hk (by exact_mod_cast h2)
  have hsk : 0 < Real.sqrt k := Real.sqrt_pos.mpr hk
  rw [rpow_neg_half_eq _ (le_of_lt hk), rpow_neg_three_halves_eq _ hw,
    inv_mul_eq_div, inv_eq_one_div, div_le_div_iff₀ (by positivity) hsk,
    one_mul]
  have hksw : Real.sqrt k ≤ Real.sqrt w :=
    Real.sqrt_le_sqrt (by exact_mod_cast h2)
  exact mul_le_mul (by exact_mod_cast h2) hksw (le_of_lt hsk) (le_of_lt hw)

theorem noam_decay_le_ramp (w k : ℕ) (hw1 : 1 ≤ w) (h2 : w ≤ k) :
    (k : ℝ) ^ (-(1 / 2) : ℝ) ≤ ((w : ℝ) ^ (-(3 / 2) : ℝ)) * (k : ℝ) := by
  have hw : (0 : ℝ) < w := by exact_mod_cast hw1
  have hk : (0 : ℝ) < k := lt_of_lt_of_le hw (by exact_mod_cast h2)
  have hsk : 0 < Real.sqrt k := Real.sqrt_pos.mpr hk
  rw [rpow_neg_half_eq _ (le_of_lt hk), rpow_neg_three_halves_eq _ hw,
    inv_mul_eq_div, inv_eq_one_div, div_le_div_iff₀ hsk (by positivity),
    one_mul]
  have hwsk : Real.sqrt w ≤ Real.sqrt k :=
    Real.sqrt_le_sqrt (by exact_mod_cast h2)
  exact mul_le_mul (by exact_mod_cast h2) hwsk (Real.sqrt_nonneg _)
    (le_of_lt hk)

/-- C7 (amended): NoamDecay.step computes the scaled minimum of the
inverse-square-root decay term and the warmup ramp term; for positive
learning_rate, d_model and warmup_steps, the rate strictly increases from
one step to the next while the counter is below warmup_steps and strictly
decreases from warmup_steps on, so it peaks at step_num equal to
warmup_steps. -/
theorem noam_decay_spec (lr : ℝ) (d w n : ℕ)
    (hlr : 0 < lr) (hd : 0 < d) (hw : 0 < w) :
    (noamDecayStep lr d w n =
      lr * ((d : ℝ) ^ (-(1 / 2) : ℝ)) *
        min ((n : ℝ) ^ (-(1 / 2) : ℝ))
          (((w : ℝ) ^ (-(3 / 2) : ℝ)) * (n : ℝ))) ∧
    (1 ≤ n → n < w →
      noamDecayStep lr d w n < noamDecayStep lr d w (n + 1)) ∧
    (w ≤ n →
      noamDecayStep lr d w (n + 1) < noamDecayStep lr d w n) := by
  have hC : 0 < lr * ((d : ℝ) ^ (-(1 / 2) : ℝ)) :=
    mul_pos hlr (Real.rpow_pos_of_pos (by exact_mod_cast hd) _)
  refine ⟨rfl, ?_, ?_⟩
  · intro h1 h2
    have e1 : noamDecayStep lr d w n =
        lr * ((d : ℝ) ^ (-(1 / 2) : ℝ)) *
          (((w : ℝ) ^ (-(3 / 2) : ℝ)) * (n : ℝ)) := by
      simp only [noamDecayStep]
      rw [min_eq_right (noam_ramp_le_decay w n h1 (le_of_lt h2))]
    have e2 : noamDecayStep lr d w (n + 1) =
        lr * ((d : ℝ) ^ (-(1 / 2) : ℝ)) *
          (((w : ℝ) ^ (-(3 / 2) : ℝ)) * ((n + 1 : ℕ) : ℝ)) := by
      simp only [noamDecayStep]
      rw [min_eq_right (noam_ramp_le_decay w (n + 1) (by omega) h2)]
    rw [e1, e2]
    have hwp : (0 : ℝ) < (w : ℝ) ^ (-(3 / 2) : ℝ) :=
      Real.rpow_pos_of_pos (by exact_mod_cast hw) _
    have hlt : (n : ℝ) < ((n + 1 : ℕ) : ℝ) := by
      exact_mod_cast Nat.lt_succ_self n
    exact mul_lt_mul_of_pos_left (mul_lt_mul_of_pos_left hlt hwp) hC
  · intro h
    have hk : 1 ≤ n := le_trans hw h
    have hn0 : (0 : ℝ) < n := by exact_mod_cast hk
    have e1 : noamDecayStep lr d w n =
        lr * ((d : ℝ) ^ (-(1 / 2) : ℝ)) * ((n : ℝ) ^ (-(1 / 2) : ℝ)) := by
      simp only [noamDecayStep]
      rw [min_eq_left (noam_decay_le_ramp w n hw h)]
    have e2 : noamDecayStep lr d w (n + 1) =
        lr * ((d : ℝ) ^ (-(1 / 2) : ℝ)) *
          (((n + 1 : ℕ) : ℝ) ^ (-(1 / 2) : ℝ)) := by
      simp only [noamDecayStep]
      rw [min_eq_left (noam_decay_le_ramp w (n + 1) hw (by omega))]
    rw [e1, e2]
    have hlt : Real.sqrt (n : ℝ) < Real.sqrt ((n + 1 : ℕ) : ℝ) := by
      apply Real.sqrt_lt_sqrt (le_of_lt hn0)
      exact_mod_cast Nat.lt_succ_self n
    have hinv : (((n + 1 : ℕ) : ℝ)) ^ (-(1 / 2) : ℝ) <
        ((n : ℝ)) ^ (-(1 / 2) : ℝ) := by
      rw [rpow_neg_half_eq _ (by positivity), rpow_neg_half_eq _ (le_of_lt hn0)]
      exact inv_strictAnti₀ (Real.sqrt_pos.mpr hn0) hlt
    exact mul_lt_mul_of_pos_left hinv hC

/-- Witness for C7: with unit scale and dimension and four warmup steps,
the rate rises from step two to step three and falls from step four to
step five. -/
theorem noam_decay_spec_witness :
    (0 : ℝ) < 1 ∧ (0 < 1 ∧ 0 < 4) ∧
    noamDecayStep 1 1 4 2 < noamDecayStep 1 1 4 3 ∧
    noamDecayStep 1 1 4 5 < noamDecayStep 1 1 4 4 :=
  ⟨by norm_num, ⟨by norm_num, by norm_num⟩,
    (noam_decay_spec 1 1 4 2 (by norm_num) (by norm_num) (by norm_num)).2.1
      (by norm_num) (by norm_num),
    (noam_decay_spec 1 1 4 4 (by norm_num) (by norm_num) (by norm_num)).2.2
      (le_refl 4)⟩

/-- C7 is refuted as it is stated: the claim constrains d_model and
warmup_steps to be positive but not the learning rate, and with a zero
learning rate the rate is identically zero, so it does not strictly
increase below the warmup boundary. -/
theorem noam_zero_lr_flat :
    noamDecayStep 0 1 4 1 = noamDecayStep 0 1 4 2 ∧
    (1 : ℕ) < 2 ∧ (2 : ℕ) < 4 := by
  refine ⟨?_, by norm_num, by norm_num⟩
  simp [noamDecayStep]

/-- C6: PolynomialDecay.step equals the effective-step and horizon formula
of the specification for every configuration, and in the concrete
non-cyclic instance with initial rate one tenth, ten decay steps, zero end
rate and power one, the rate is one tenth at step zero, zero at step ten,
and monotonically non-increasing in the step counter. -/
theorem polynomial_decay_spec :
    (∀ (lr elr pw : ℝ) (ds : ℕ) (cy : Bool) (n : ℕ),
      polynomialDecayStep lr elr pw ds cy n =
        polynomialClaimRate lr elr pw ds cy n) ∧
    polynomialDecayStep (1 / 10) 0 1 10 false 0 = 1 / 10 ∧
    polynomialDecayStep (1 / 10) 0 1 10 false 10 = 0 ∧
    (∀ n m : ℕ, n ≤ m →
      polynomialDecayStep (1 / 10) 0 1 10 false m ≤
        polynomialDecayStep (1 / 10) 0 1 10 false n) := by
  have hval : ∀ k : ℕ, polynomialDecayStep (1 / 10) 0 1 10 false k =
      1 / 10 * (1 - min (k : ℝ) 10 / 10) := by
    intro k
    have hmin : (if k < 10 then (k : ℝ) else (10 : ℝ)) =
        min (k : ℝ) (10 : ℝ) := by
      rcases Nat.lt_or_ge k 10 with h | h
      · rw [if_pos h, min_eq_left]
        exact_mod_cast le_of_lt h
      · rw [if_neg (not_lt.mpr h), min_eq_right]
        exact_mod_cast h
    simp [polynomialDecayStep, hmin, Real.rpow_one]
  refine ⟨?_, ?_, ?_, ?_⟩
  · intro lr elr pw ds cy n
    cases cy with
    | true => rfl
    | false =>
      have hmin : (if n < ds then (n : ℝ) else (ds : ℝ)) =
          min (n : ℝ) (ds : ℝ) := by
        rcases Nat.lt_or_ge n ds with h | h
        · rw [if_pos h, min_eq_left]
          exact_mod_cast le_of_lt h
        · rw [if_neg (not_lt.mpr h), min_eq_right]
          exact_mod_cast h
      simp [polynomialDecayStep, polynomialClaimRate, hmin]
  · rw [hval]
    norm_num
  · rw [hval]
    norm_num
  · intro n m hnm
    rw [hval n, hval m]
    have hm : min (n : ℝ) 10 ≤ min (m : ℝ) 10 :=
      min_le_min (by exact_mod_cast hnm) (le_refl _)
    have hsub : (1 : ℝ) - min (m : ℝ) 10 / 10 ≤ 1 - min (n : ℝ) 10 / 10 := by
      linarith
    have := mul_le_mul_of_nonneg_left hsub (by norm_num : (0 : ℝ) ≤ 1 / 10)
    exact this

/-- Witness for C6 at steps three and seven of the concrete instance. -/
theorem polynomial_decay_spec_witness :
    (3 : ℕ) ≤ 7 ∧
    polynomialDecayStep (1 / 10) 0 1 10 false 7 ≤
      polynomialDecayStep (1 / 10) 0 1 10 false 3 :=
  ⟨by norm_num, polynomial_decay_spec.2.2.2 3 7 (by norm_num)⟩

end Paddle
